import Mathlib

/-!
Shallow embedding of `htlcswitch/link.go` (the channel link of the lnd
repository).  Machine integers are modelled as `Nat` (for the unsigned
`uint32` / `uint64` quantities: millisatoshi amounts, block heights,
HTLC indices) and `Int` (for the signed `int64` `btcutil.Amount`), with
wrap-around made explicit through `% 2^32` / `% 2^64` where the Go code
can overflow.  External collaborators (Channel Machine, Invoice
Registry, Preimage Cache, Peer Transport, Switch, onion decoders) are
modelled as oracle inputs: each handler receives the results the
collaborator calls would produce and we record the calls and wire sends
it performs in an explicit effect structure.
-/

/-- 2^64, the modulus of Go's `uint64` (`lnwire.MilliSatoshi`). -/
def U64 : Nat := 18446744073709551616

/-- 2^32, the modulus of Go's `uint32` (block heights, CLTV values). -/
def U32 : Nat := 4294967296

/-- Go `uint64` addition: wraps modulo 2^64. -/
def add64 (a b : Nat) : Nat := (a + b) % U64

/-- Go `uint64` multiplication: wraps modulo 2^64. -/
def mul64 (a b : Nat) : Nat := (a * b) % U64

/-- Go `uint64` subtraction: wraps modulo 2^64. -/
def sub64 (a b : Nat) : Nat := (a % U64 + (U64 - b % U64)) % U64

/-- Go `uint32` addition: wraps modulo 2^32. -/
def add32 (a b : Nat) : Nat := (a + b) % U32

/-- Go `uint32` subtraction: wraps modulo 2^32. -/
def sub32 (a b : Nat) : Nat := (a % U32 + (U32 - b % U32)) % U32

/-- Reduce an integer into the two's-complement `int64` range
`[-2^63, 2^63)`, the wrap-around of Go `int64` arithmetic. -/
def wrapI64 (x : Int) : Int := (x + 2 ^ 63) % 2 ^ 64 - 2 ^ 63

/-- `expiryGraceDelta` from link.go: grace period (in blocks) for the
timeout of incoming HTLCs that pay directly to us. -/
def expiryGraceDelta : Nat := 2

/-- `ForwardingPolicy` from link.go.  `MinHTLC`, `BaseFee`, `FeeRate`
are `lnwire.MilliSatoshi` (uint64); `TimeLockDelta` is uint32. -/
structure ForwardingPolicy where
  MinHTLC : Nat
  BaseFee : Nat
  FeeRate : Nat
  TimeLockDelta : Nat
deriving DecidableEq, Repr

/-- `ExpectedFee` from link.go:
`f.BaseFee + (htlcAmt*f.FeeRate)/1000000` in `uint64` arithmetic
(the product wraps modulo 2^64, division is unsigned truncating). -/
def ExpectedFee (f : ForwardingPolicy) (htlcAmt : Nat) : Nat :=
  add64 f.BaseFee (mul64 htlcAmt f.FeeRate / 1000000)

/-- `shouldAdjustCommitFee` from link.go.  `netFee`, `chanFee` are
`btcutil.Amount` (`int64`); `chanFee*10` and the subsequent sum and
difference wrap as `int64`, `/100` truncates toward zero (Go `/`). -/
def shouldAdjustCommitFee (netFee chanFee : Int) : Bool :=
  if chanFee < netFee ∧ wrapI64 (chanFee + Int.tdiv (wrapI64 (chanFee * 10)) 100) ≤ netFee then
    true
  else if netFee < chanFee ∧ netFee ≤ wrapI64 (chanFee - Int.tdiv (wrapI64 (chanFee * 10)) 100) then
    true
  else
    false

/-- The sentinel `exitHop` next-hop value (`lnwire.ShortChannelID` zero
value) used in `processLockedInHtlcs` to recognise that this node is
the payment destination. -/
def exitHop : Nat := 0

/-- The forwarding instructions decoded from the onion packet
(`ForwardingInfo`).  `NextHop` is a short channel id with `exitHop` as
sentinel; `AmountToForward` is uint64 millisatoshi; `OutgoingCTLV` is
uint32. -/
structure FwdInfo where
  NextHop : Nat
  AmountToForward : Nat
  OutgoingCTLV : Nat
deriving DecidableEq, Repr

/-- The fields of an Add `lnwallet.PaymentDescriptor` consumed by
`processLockedInHtlcs`: `Amount` (uint64 msat), `Timeout` (uint32),
the HTLC index and the payment hash. -/
structure PaymentDesc where
  Amount : Nat
  Timeout : Nat
  HtlcIndex : Nat
  RHash : Nat
deriving DecidableEq, Repr

/-- The invoice fields consulted at the exit hop:
`Terms.Value`, `Terms.Settled`, `Terms.PaymentPreimage`. -/
structure Invoice where
  value : Nat
  settled : Bool
  preimage : Nat
deriving DecidableEq, Repr

/-- The wire failure message chosen when an Add is rejected.  The
`Nat` payloads record the arguments the Go constructors receive
(amounts, timeouts, the last channel update). -/
inductive FailureMsg where
  | expiryTooSoon (update : Nat)
  | temporaryChannelFailure
  | amountBelowMinimum (amt : Nat) (update : Nat)
  | feeInsufficient (amt : Nat) (update : Nat)
  | incorrectCltvExpiry (timeout : Nat) (update : Nat)
  | finalIncorrectCltvExpiry (ctlv : Option Nat)
  | unknownPaymentHash
  | incorrectPaymentAmount
deriving DecidableEq, Repr

/-- The outcome of processing one locked-in Add payment descriptor. -/
inductive AddOutcome where
  | forwardPkt (incomingHTLCID outgoingChanID amount expiry : Nat)
  | rejectWith (f : FailureMsg)
  | malformedReject (idx : Nat)
  | settleHtlc (preimage : Nat) (idx : Nat)
  | skipHodl
  | linkFail
deriving DecidableEq, Repr

/-- The exit-hop (`case exitHop`) branch of the Add case of
`processLockedInHtlcs`, translated check for check.  `settleOk` and
`invoiceOk` are the results of `channel.SettleHTLC` and
`Registry.SettleInvoice`; an error in either invokes `l.fail`. -/
def processExit (debug hodl : Bool) (height : Nat) (policy : ForwardingPolicy)
    (lookup : Option Invoice) (settleOk invoiceOk : Bool)
    (pd : PaymentDesc) (fwd : FwdInfo) : AddOutcome :=
  if debug = true ∧ hodl = true then .skipHodl
  else if sub32 pd.Timeout expiryGraceDelta ≤ height then
    .rejectWith (.finalIncorrectCltvExpiry none)
  else
    match lookup with
    | none => .rejectWith .unknownPaymentHash
    | some inv =>
      if inv.settled = true then .rejectWith .unknownPaymentHash
      else if debug = false ∧ 0 < inv.value ∧ pd.Amount < inv.value then
        .rejectWith .incorrectPaymentAmount
      else if debug = false ∧ 0 < inv.value ∧ fwd.AmountToForward ≠ inv.value then
        .rejectWith .incorrectPaymentAmount
      else if debug = false ∧ fwd.OutgoingCTLV < add32 height policy.TimeLockDelta then
        .rejectWith (.finalIncorrectCltvExpiry (some fwd.OutgoingCTLV))
      else if debug = false ∧ pd.Timeout ≠ fwd.OutgoingCTLV then
        .rejectWith (.finalIncorrectCltvExpiry (some fwd.OutgoingCTLV))
      else if settleOk = false then .linkFail
      else if invoiceOk = false then .linkFail
      else .settleHtlc inv.preimage pd.HtlcIndex

/-- The forwarding-hop (`default`) branch of the Add case of
`processLockedInHtlcs`, translated check for check.  `lastUpdate` is
the result of `GetLastChannelUpdate` (`none` = error), `encodeOk` the
result of `chanIterator.EncodeNextHop`. -/
def processForward (policy : ForwardingPolicy) (height : Nat)
    (lastUpdate : Option Nat) (encodeOk : Bool)
    (pd : PaymentDesc) (fwd : FwdInfo) : AddOutcome :=
  let timeDelta := policy.TimeLockDelta
  if sub32 pd.Timeout timeDelta ≤ height then
    .rejectWith (match lastUpdate with
      | none => .temporaryChannelFailure
      | some u => .expiryTooSoon u)
  else if pd.Amount < policy.MinHTLC then
    .rejectWith (match lastUpdate with
      | none => .temporaryChannelFailure
      | some u => .amountBelowMinimum pd.Amount u)
  else
    let expectedFee := ExpectedFee policy fwd.AmountToForward
    if sub64 pd.Amount expectedFee < fwd.AmountToForward then
      .rejectWith (match lastUpdate with
        | none => .temporaryChannelFailure
        | some u => .feeInsufficient pd.Amount u)
    else if sub32 pd.Timeout timeDelta < fwd.OutgoingCTLV then
      match lastUpdate with
      | none => .linkFail
      | some u => .rejectWith (.incorrectCltvExpiry pd.Timeout u)
    else if encodeOk = false then
      .rejectWith .temporaryChannelFailure
    else
      .forwardPkt pd.HtlcIndex fwd.NextHop fwd.AmountToForward fwd.OutgoingCTLV

/-- Oracle bundle for one locked-in Add descriptor: results of the
onion obfuscator decode, the hop-iterator decode, the forwarding
instructions, the invoice lookup, the settle calls, the next-hop onion
encode, and the last channel update; plus, for a rejection, the
internal results of `sendHTLCError` (`EncryptFirstHop`, then
`channel.FailHTLC`) and of `sendMalformedHTLCError`
(`channel.MalformedFailHTLC`), each of which logs and returns early on
error. -/
structure PdOracle where
  obfuscatorOk : Bool
  hopOk : Bool
  fwd : FwdInfo
  lookup : Option Invoice
  settleOk : Bool
  invoiceOk : Bool
  encodeOk : Bool
  lastUpdate : Option Nat
  sendErrEncryptOk : Bool
  sendErrFailOk : Bool
  malformedFailCmOk : Bool
deriving DecidableEq, Repr

/-- The Add (`case lnwallet.Add`) body of the `processLockedInHtlcs`
loop: onion decode steps, then dispatch on `fwdInfo.NextHop`. -/
def processAddPd (debug hodl : Bool) (height : Nat) (policy : ForwardingPolicy)
    (o : PdOracle) (pd : PaymentDesc) : AddOutcome :=
  if o.obfuscatorOk = false then .malformedReject pd.HtlcIndex
  else if o.hopOk = false then .malformedReject pd.HtlcIndex
  else if o.fwd.NextHop = exitHop then
    processExit debug hodl height policy o.lookup o.settleOk o.invoiceOk pd o.fwd
  else
    processForward policy height o.lastUpdate o.encodeOk pd o.fwd

/-- Wire messages the link sends to the peer (`Peer.SendMessage`). -/
inductive WireMsg where
  | commitSigMsg (sig : Nat)
  | revokeAndAckMsg
  | settleMsg (id : Nat) (preimage : Nat)
  | failMsg (id : Nat)
  | malformedFailMsg (id : Nat)
  | addMsg (id : Nat)
  | errorMsg
deriving DecidableEq, Repr

/-- The Channel Machine mutation calls a handler performs. -/
inductive CMCall where
  | addHTLC
  | settleHTLC
  | failHTLC
  | malformedFailHTLC
deriving DecidableEq, Repr

/-- Packets submitted to the Switch by the downstream Add error path
or reserved for backward propagation. -/
inductive AddErr where
  | maxHTLCNumber
  | otherAddErr
deriving DecidableEq, Repr

/-- Downstream packets from the Switch (`htlcPacket` payload kinds). -/
inductive DownPkt where
  | addPkt (amount : Nat) (hash : Nat)
  | settlePkt (preimage : Nat) (incomingID : Nat)
  | failPkt (incomingID : Nat)
deriving DecidableEq, Repr

/-- The mutable link state touched by the embedded handlers:
the forwarding policy, `batchCounter`, `bestHeight`, the overflow
queue contents, and whether the log-commit timer is armed. -/
structure LinkState where
  policy : ForwardingPolicy
  batchCounter : Nat
  bestHeight : Nat
  overflowQueue : List DownPkt
  logCommitTickArmed : Bool
deriving DecidableEq, Repr

/-- Observable side effects of one handler invocation: Channel Machine
calls, wire sends, packets forwarded to the Switch, circuits added,
overflow free-slot signals, and whether `l.fail` was invoked
(log + instruct the Peer Transport to disconnect). -/
structure Effects where
  cmCalls : List CMCall
  sent : List WireMsg
  switchPkts : Nat
  circuitsAdded : Nat
  freeSlots : Nat
  failCalled : Bool
deriving DecidableEq, Repr

/-- The no-effect value. -/
def emptyEffects : Effects :=
  ⟨[], [], 0, 0, 0, false⟩

/-- Result of `channel.SignNextCommitment`. -/
inductive SignResult where
  | ok (sig : Nat)
  | errNoWindow
  | errOther
deriving DecidableEq, Repr

/-- `updateCommitTx` from link.go.  On `ErrNoWindow` it returns nil
(success) without sending anything; on any other sign error it returns
the error; on success it sends a `CommitSig`, disarms the log-commit
tick and zeroes `batchCounter`.  `none` models an error return. -/
def updateCommitTx (sign : SignResult) (s : LinkState) :
    Option (LinkState × List WireMsg) :=
  match sign with
  | .errNoWindow => some (s, [])
  | .errOther => none
  | .ok sig =>
    some ({ s with batchCounter := 0, logCommitTickArmed := false },
      [WireMsg.commitSigMsg sig])

/-- The `*policyUpdate` case of the link-control branch of
`htlcManager`: merge the non-zero fields of the requested policy into
the current one.  Mirrors the Go code: only `BaseFee`, `FeeRate` and
`TimeLockDelta` are consulted. -/
def handlePolicyUpdate (s : LinkState) (newPolicy : ForwardingPolicy) : LinkState :=
  let p0 := s.policy
  let p1 := if newPolicy.BaseFee ≠ 0 then { p0 with BaseFee := newPolicy.BaseFee } else p0
  let p2 := if newPolicy.FeeRate ≠ 0 then { p1 with FeeRate := newPolicy.FeeRate } else p1
  let p3 := if newPolicy.TimeLockDelta ≠ 0 then
      { p2 with TimeLockDelta := newPolicy.TimeLockDelta } else p2
  { s with policy := p3 }

/-- Oracle for `handleDownStreamPkt`: results of `channel.AddHTLC`,
`channel.SettleHTLC`, `channel.FailHTLC` and `SignNextCommitment`,
plus the inputs of the downstream-Add default error branch:
`hasObfuscator` mirrors `pkt.obfuscator != nil` (a locally originated
payment has none), `encodeFailureOk` the result of
`lnwire.EncodeFailure` on the local path, and `encryptFirstHopOk` the
result of `pkt.obfuscator.EncryptFirstHop` on the obfuscated path. -/
structure DownOracle where
  addResult : Except AddErr Nat
  settleResult : Except Unit Unit
  failResult : Except Unit Unit
  sign : SignResult
  hasObfuscator : Bool
  encodeFailureOk : Bool
  encryptFirstHopOk : Bool
deriving Repr

/-- `handleDownStreamPkt` from link.go, translated branch for branch.
The `isSettle` flag and the trailing
`batchCounter++; if batchCounter >= 10 || isSettle { updateCommitTx }`
are inlined on the paths that reach them.  On the downstream-Add
default error branch, an `EncodeFailure` error (local payment) or an
`EncryptFirstHop` error (obfuscated payment) logs and returns without
forwarding the failure packet to the Switch. -/
def handleDownStreamPkt (o : DownOracle) (s : LinkState) (pkt : DownPkt) :
    LinkState × Effects :=
  match pkt with
  | .addPkt amt h =>
    match o.addResult with
    | .error .maxHTLCNumber =>
      ({ s with overflowQueue := s.overflowQueue ++ [DownPkt.addPkt amt h] },
        { emptyEffects with cmCalls := [CMCall.addHTLC] })
    | .error .otherAddErr =>
      if o.hasObfuscator = false then
        if o.encodeFailureOk = false then
          (s, { emptyEffects with cmCalls := [CMCall.addHTLC] })
        else
          (s, { emptyEffects with cmCalls := [CMCall.addHTLC], switchPkts := 1 })
      else
        if o.encryptFirstHopOk = false then
          (s, { emptyEffects with cmCalls := [CMCall.addHTLC] })
        else
          (s, { emptyEffects with cmCalls := [CMCall.addHTLC], switchPkts := 1 })
    | .ok index =>
      let s1 := { s with batchCounter := s.batchCounter + 1 }
      let eff := { emptyEffects with
        cmCalls := [CMCall.addHTLC], circuitsAdded := 1,
        sent := [WireMsg.addMsg index] }
      if 10 ≤ s1.batchCounter then
        match updateCommitTx o.sign s1 with
        | none => (s1, { eff with failCalled := true })
        | some (s2, ms) => (s2, { eff with sent := eff.sent ++ ms })
      else (s1, eff)
  | .settlePkt p id =>
    match o.settleResult with
    | .error _ =>
      (s, { emptyEffects with cmCalls := [CMCall.settleHTLC], failCalled := true })
    | .ok _ =>
      let s1 := { s with batchCounter := s.batchCounter + 1 }
      let eff := { emptyEffects with
        cmCalls := [CMCall.settleHTLC], sent := [WireMsg.settleMsg id p] }
      match updateCommitTx o.sign s1 with
      | none => (s1, { eff with failCalled := true })
      | some (s2, ms) => (s2, { eff with sent := eff.sent ++ ms })
  | .failPkt id =>
    match o.failResult with
    | .error _ =>
      (s, { emptyEffects with cmCalls := [CMCall.failHTLC] })
    | .ok _ =>
      let s1 := { s with batchCounter := s.batchCounter + 1 }
      let eff := { emptyEffects with
        cmCalls := [CMCall.failHTLC], sent := [WireMsg.failMsg id] }
      match updateCommitTx o.sign s1 with
      | none => (s1, { eff with failCalled := true })
      | some (s2, ms) => (s2, { eff with sent := eff.sent ++ ms })

/-- Whether a downstream packet carries an `UpdateAddHTLC` (the type
assertion in the `case pkt := <-l.downstream` branch). -/
def DownPkt.isAdd : DownPkt → Bool
  | .addPkt _ _ => true
  | _ => false

/-- The `case pkt := <-l.downstream` branch of the `htlcManager` event
loop: an Add arriving while the overflow queue is non-empty is only
appended to the queue; every other packet is handled inline. -/
def downstreamDispatch (o : DownOracle) (s : LinkState) (pkt : DownPkt) :
    LinkState × Effects :=
  if pkt.isAdd = true ∧ s.overflowQueue ≠ [] then
    ({ s with overflowQueue := s.overflowQueue ++ [pkt] }, emptyEffects)
  else
    handleDownStreamPkt o s pkt

/-- One locked-in payment descriptor together with the oracle results
its processing consumes (`lnwallet.PaymentDescriptor.EntryType`). -/
inductive PdInput where
  | settleEntry (parentIndex amount preimage : Nat)
  | failEntry (parentIndex amount : Nat)
  | addEntry (pd : PaymentDesc) (o : PdOracle)
deriving Repr

/-- Effects of one iteration of the `processLockedInHtlcs` loop:
wire sends, Channel Machine calls, packets appended to the forwarding
batch, free-slot signals, whether `needUpdate` was set, and whether the
iteration aborted the whole call through `l.fail` (`return nil`). -/
structure LoopStep where
  sent : List WireMsg
  cmCalls : List CMCall
  pkts : Nat
  freeSlots : Nat
  needUpdate : Bool
  aborted : Bool
deriving DecidableEq, Repr

/-- The body of the `processLockedInHtlcs` loop for one descriptor.
On a rejection, `sendHTLCError` returns early without the `FailHTLC`
call when `EncryptFirstHop` errors, and without the wire send when
`FailHTLC` errors; `sendMalformedHTLCError` skips its wire send when
`MalformedFailHTLC` errors; `needUpdate` is set by the caller in every
rejection case regardless.  The Channel Machine call of the aborting
step itself (the settle that errored, when the abort comes from the
exit-hop settle path) is not recorded. -/
def lockedInStep (debug hodl : Bool) (height : Nat) (policy : ForwardingPolicy) :
    PdInput → LoopStep
  | .settleEntry _ _ _ => ⟨[], [], 1, 1, false, false⟩
  | .failEntry _ _ => ⟨[], [], 1, 1, false, false⟩
  | .addEntry pd o =>
    match processAddPd debug hodl height policy o pd with
    | .forwardPkt _ _ _ _ => ⟨[], [], 1, 0, false, false⟩
    | .rejectWith _ =>
      if o.sendErrEncryptOk = false then ⟨[], [], 0, 0, true, false⟩
      else if o.sendErrFailOk = false then ⟨[], [CMCall.failHTLC], 0, 0, true, false⟩
      else ⟨[WireMsg.failMsg pd.HtlcIndex], [CMCall.failHTLC], 0, 0, true, false⟩
    | .malformedReject idx =>
      if o.malformedFailCmOk = false then
        ⟨[], [CMCall.malformedFailHTLC], 0, 0, true, false⟩
      else
        ⟨[WireMsg.malformedFailMsg idx], [CMCall.malformedFailHTLC], 0, 0, true, false⟩
    | .settleHtlc p idx => ⟨[WireMsg.settleMsg idx p], [CMCall.settleHTLC], 0, 0, true, false⟩
    | .skipHodl => ⟨[], [], 0, 0, false, false⟩
    | .linkFail => ⟨[], [], 0, 0, false, true⟩

/-- Fold of `lockedInStep` over the descriptor list, aborting (as the
Go `return nil` does) as soon as a step fails the link. -/
def runPds (debug hodl : Bool) (height : Nat) (policy : ForwardingPolicy) :
    List PdInput → LoopStep
  | [] => ⟨[], [], 0, 0, false, false⟩
  | e :: rest =>
    let st := lockedInStep debug hodl height policy e
    if st.aborted = true then st
    else
      let r := runPds debug hodl height policy rest
      ⟨st.sent ++ r.sent, st.cmCalls ++ r.cmCalls, st.pkts + r.pkts,
        st.freeSlots + r.freeSlots, st.needUpdate || r.needUpdate, r.aborted⟩

/-- `processLockedInHtlcs` from link.go over a descriptor list: run the
loop, then, if any settle/cancel updates were added, initiate a state
transition via `updateCommitTx`; on abort or commit failure the packet
batch is dropped (`return nil`). -/
def processLockedInHtlcs (debug hodl : Bool) (sign : SignResult) (s : LinkState)
    (pds : List PdInput) : LinkState × Effects :=
  let r := runPds debug hodl s.bestHeight s.policy pds
  if r.aborted = true then
    (s, { cmCalls := r.cmCalls, sent := r.sent, switchPkts := 0,
          circuitsAdded := 0, freeSlots := r.freeSlots, failCalled := true })
  else if r.needUpdate = true then
    match updateCommitTx sign s with
    | none =>
      (s, { cmCalls := r.cmCalls, sent := r.sent, switchPkts := 0,
            circuitsAdded := 0, freeSlots := r.freeSlots, failCalled := true })
    | some (s2, ms) =>
      (s2, { cmCalls := r.cmCalls, sent := r.sent ++ ms, switchPkts := r.pkts,
             circuitsAdded := 0, freeSlots := r.freeSlots, failCalled := false })
  else
    (s, { cmCalls := r.cmCalls, sent := r.sent, switchPkts := r.pkts,
          circuitsAdded := 0, freeSlots := r.freeSlots, failCalled := false })

/-- Upstream wire messages (`handleUpstreamMsg` dispatch kinds). -/
inductive UpMsg where
  | addUp
  | settleUp
  | failUp
  | malformedUp
  | commitSigUp
  | revokeAndAckUp
  | updateFeeUp
deriving DecidableEq, Repr

/-- Oracle for `handleUpstreamMsg`: results of the Channel Machine
calls each branch performs.  The error payload of `receiveCommit`
records whether the error is an `InvalidCommitSigError`. -/
structure UpOracle where
  receiveHTLC : Except Unit Nat
  receiveSettle : Except Unit Unit
  receiveFail : Except Unit Unit
  encodeFailureOk : Bool
  receiveMalformedFail : Except Unit Unit
  receiveCommit : Except Bool Unit
  revoke : Except Unit Unit
  receiveRevocation : Except Unit (List PdInput)
  receiveUpdateFee : Except Unit Unit
  fullySynced : Bool
  sign : SignResult
deriving Repr

/-- `handleUpstreamMsg` from link.go, translated branch for branch. -/
def handleUpstreamMsg (o : UpOracle) (debug hodl : Bool) (msg : UpMsg)
    (s : LinkState) : LinkState × Effects :=
  match msg with
  | .addUp =>
    match o.receiveHTLC with
    | .error _ => (s, { emptyEffects with failCalled := true })
    | .ok _ => (s, emptyEffects)
  | .settleUp =>
    match o.receiveSettle with
    | .error _ => (s, { emptyEffects with failCalled := true })
    | .ok _ => (s, emptyEffects)
  | .failUp =>
    match o.receiveFail with
    | .error _ => (s, { emptyEffects with failCalled := true })
    | .ok _ => (s, emptyEffects)
  | .malformedUp =>
    if o.encodeFailureOk = false then (s, emptyEffects)
    else
      match o.receiveMalformedFail with
      | .error _ => (s, { emptyEffects with failCalled := true })
      | .ok _ => (s, emptyEffects)
  | .commitSigUp =>
    match o.receiveCommit with
    | .error isInvalidSig =>
      (s, { emptyEffects with
        sent := if isInvalidSig then [WireMsg.errorMsg] else [],
        failCalled := true })
    | .ok _ =>
      match o.revoke with
      | .error _ => (s, emptyEffects)
      | .ok _ =>
        let s1 := { s with logCommitTickArmed := true }
        if o.fullySynced = true then
          (s1, { emptyEffects with sent := [WireMsg.revokeAndAckMsg] })
        else
          match updateCommitTx o.sign s1 with
          | none =>
            (s1, { emptyEffects with
                    sent := [WireMsg.revokeAndAckMsg], failCalled := true })
          | some (s2, ms) =>
            (s2, { emptyEffects with sent := WireMsg.revokeAndAckMsg :: ms })
  | .revokeAndAckUp =>
    match o.receiveRevocation with
    | .error _ => (s, { emptyEffects with failCalled := true })
    | .ok pds => processLockedInHtlcs debug hodl o.sign s pds
  | .updateFeeUp =>
    match o.receiveUpdateFee with
    | .error _ => (s, { emptyEffects with failCalled := true })
    | .ok _ => (s, emptyEffects)

/-- A message replayed during channel re-establishment
(`msgsToReSend` in `syncChanStates`): either a Settle
(`lnwire.UpdateFufillHTLC`) carrying its HTLC id, or any other
message. -/
inductive ReMsg where
  | settleRe (id : Nat)
  | otherRe (n : Nat)
deriving DecidableEq, Repr

/-- The `htlcsSettled` set of `syncChanStates`: the HTLC indices of the
replayed Settle messages. -/
def settledIndices (ms : List ReMsg) : List Nat :=
  ms.filterMap fun m =>
    match m with
    | .settleRe i => some i
    | .otherRe _ => none

/-- One entry of `channel.ActiveHtlcs()` as consumed by the post-resync
scan: direction flag, HTLC index and payment hash. -/
structure ActiveHtlc where
  incoming : Bool
  htlcIndex : Nat
  rhash : Nat
deriving DecidableEq, Repr

/-- The post-replay scan of `syncChanStates`, translated check for
check: for each active HTLC, skip if it is not incoming, or its index
was just re-settled in the sync, or the Preimage Cache has no preimage
for it; otherwise settle it on the Channel Machine and in the Invoice
Registry (an error in either fails the link: result `none`), increment
`batchCounter` and send a wire Settle. -/
def syncSettleScan (cache : Nat → Option Nat) (settleOk invoiceOk : Nat → Bool)
    (sIdx : List Nat) : List ActiveHtlc → LinkState →
    Option (LinkState × List WireMsg)
  | [], s => some (s, [])
  | h :: rest, s =>
    if h.incoming = false then syncSettleScan cache settleOk invoiceOk sIdx rest s
    else if h.htlcIndex ∈ sIdx then syncSettleScan cache settleOk invoiceOk sIdx rest s
    else
      match cache h.rhash with
      | none => syncSettleScan cache settleOk invoiceOk sIdx rest s
      | some p =>
        if settleOk h.htlcIndex = false then none
        else if invoiceOk h.rhash = false then none
        else
          match syncSettleScan cache settleOk invoiceOk sIdx rest
              { s with batchCounter := s.batchCounter + 1 } with
          | none => none
          | some (s2, ms) => some (s2, WireMsg.settleMsg h.htlcIndex p :: ms)

/-- The post-replay fragment of `syncChanStates`: build the
`htlcsSettled` index set from the replayed messages, then run the
settle scan over the active HTLCs. -/
def syncChanStatesScan (cache : Nat → Option Nat) (settleOk invoiceOk : Nat → Bool)
    (resend : List ReMsg) (hs : List ActiveHtlc) (s : LinkState) :
    Option (LinkState × List WireMsg) :=
  syncSettleScan cache settleOk invoiceOk (settledIndices resend) hs s

/-- The active HTLCs the post-resync scan settles: incoming, index not
among the replayed settles, preimage known. -/
def eligibleHtlcs (cache : Nat → Option Nat) (sIdx : List Nat)
    (hs : List ActiveHtlc) : List ActiveHtlc :=
  hs.filter fun h =>
    h.incoming && !(decide (h.htlcIndex ∈ sIdx)) && (cache h.rhash).isSome

/-- `Bandwidth` from link.go:
`channel.AvailableBalance() - overflowQueue.TotalHtlcAmount()` on
`lnwire.MilliSatoshi`, i.e. wrapping `uint64` subtraction. -/
def Bandwidth (availableBalance overflowTotal : Nat) : Nat :=
  sub64 availableBalance overflowTotal

/-- C3 counterexample: the link-control policy update never overwrites
`MinHTLC`.  Starting from `MinHTLC = 1` and requesting the non-zero
value `5`, the merged policy still has `MinHTLC = 1`, contradicting the
claim that each of the four fields is overwritten when non-zero. -/
theorem C3_counterexample :
    (handlePolicyUpdate ⟨⟨1, 2, 3, 4⟩, 0, 0, [], false⟩ ⟨5, 0, 7, 0⟩).policy.MinHTLC = 1 ∧
    (5 : Nat) ≠ 0 ∧ (5 : Nat) ≠ 1 := by
  decide

/-- C3 (amended): on a policy-update control request, `BaseFee`,
`FeeRate` and `TimeLockDelta` are overwritten exactly when the new
value is non-zero, `MinHTLC` is always left unchanged, and no other
link state is modified. -/
theorem C3_policyUpdate_amended (s : LinkState) (np : ForwardingPolicy) :
    (handlePolicyUpdate s np).policy.MinHTLC = s.policy.MinHTLC ∧
    (handlePolicyUpdate s np).policy.BaseFee =
      (if np.BaseFee ≠ 0 then np.BaseFee else s.policy.BaseFee) ∧
    (handlePolicyUpdate s np).policy.FeeRate =
      (if np.FeeRate ≠ 0 then np.FeeRate else s.policy.FeeRate) ∧
    (handlePolicyUpdate s np).policy.TimeLockDelta =
      (if np.TimeLockDelta ≠ 0 then np.TimeLockDelta else s.policy.TimeLockDelta) ∧
    (handlePolicyUpdate s np).batchCounter = s.batchCounter ∧
    (handlePolicyUpdate s np).bestHeight = s.bestHeight ∧
    (handlePolicyUpdate s np).overflowQueue = s.overflowQueue ∧
    (handlePolicyUpdate s np).logCommitTickArmed = s.logCommitTickArmed := by
  unfold handlePolicyUpdate
  split_ifs <;> simp_all

/-- C4 counterexample: `updateCommitTx` hits `ErrNoWindow` with
`batchCounter = 3`; it returns success, sends no `CommitSig`, and the
counter is still `3`, contradicting the claim that the counter is zero
after every successful `updateCommitTx`. -/
theorem C4_counterexample :
    updateCommitTx SignResult.errNoWindow ⟨⟨1, 2, 3, 4⟩, 3, 77, [], true⟩ =
      some (⟨⟨1, 2, 3, 4⟩, 3, 77, [], true⟩, []) ∧ (3 : Nat) ≠ 0 := by
  decide

/-- C4 (amended): for every `updateCommitTx` call that returns success,
either a `CommitSig` was sent and `batchCounter` is zero afterwards, or
nothing was sent (the `ErrNoWindow` path) and the whole link state,
`batchCounter` included, is unchanged; so the counter is reset to zero
exactly on the sends. -/
theorem C4_updateCommitTx_amended (sign : SignResult) (s s' : LinkState)
    (ms : List WireMsg) (h : updateCommitTx sign s = some (s', ms)) :
    ((∃ sig, ms = [WireMsg.commitSigMsg sig]) → s'.batchCounter = 0) ∧
    (ms = [] → s' = s) ∧
    (ms = [] ∨ ∃ sig, ms = [WireMsg.commitSigMsg sig]) := by
  cases sign with
  | ok sig =>
    simp only [updateCommitTx, Option.some.injEq, Prod.mk.injEq] at h
    obtain ⟨hs, hm⟩ := h
    subst hs; subst hm
    refine ⟨fun _ => rfl, fun hnil => by simp at hnil, Or.inr ⟨sig, rfl⟩⟩
  | errNoWindow =>
    simp only [updateCommitTx, Option.some.injEq, Prod.mk.injEq] at h
    obtain ⟨hs, hm⟩ := h
    subst hs; subst hm
    exact ⟨fun hex => by obtain ⟨sig, hsig⟩ := hex; simp at hsig,
      fun _ => rfl, Or.inl rfl⟩
  | errOther => simp [updateCommitTx] at h

/-- C4 witness: the amended theorem applied to a successful sign of a
state with `batchCounter = 3`: the `CommitSig` is sent and the counter
is zero afterwards. -/
theorem C4_updateCommitTx_witness :
    ((∃ sig, ([WireMsg.commitSigMsg 5] : List WireMsg) = [WireMsg.commitSigMsg sig]) →
      (⟨⟨1, 2, 3, 4⟩, 0, 77, [], false⟩ : LinkState).batchCounter = 0) ∧
    (([WireMsg.commitSigMsg 5] : List WireMsg) = [] →
      (⟨⟨1, 2, 3, 4⟩, 0, 77, [], false⟩ : LinkState) = ⟨⟨1, 2, 3, 4⟩, 3, 77, [], true⟩) ∧
    (([WireMsg.commitSigMsg 5] : List WireMsg) = [] ∨
      ∃ sig, ([WireMsg.commitSigMsg 5] : List WireMsg) = [WireMsg.commitSigMsg sig]) :=
  C4_updateCommitTx_amended (.ok 5) ⟨⟨1, 2, 3, 4⟩, 3, 77, [], true⟩
    ⟨⟨1, 2, 3, 4⟩, 0, 77, [], false⟩ [WireMsg.commitSigMsg 5] (by decide)

/-- C7: while the overflow queue is non-empty, a fresh downstream Add
from the Switch is only appended to the overflow queue: the Channel
Machine is not called, nothing is sent, the link does not fail, and no
other component of the link state changes. -/
theorem C7_overflow_enqueue (o : DownOracle) (s : LinkState) (a hsh : Nat)
    (hq : s.overflowQueue ≠ []) :
    downstreamDispatch o s (.addPkt a hsh) =
      ({ s with overflowQueue := s.overflowQueue ++ [DownPkt.addPkt a hsh] },
        emptyEffects) := by
  unfold downstreamDispatch
  rw [if_pos ⟨rfl, hq⟩]

/-- C7 witness: the theorem at a concrete link state whose overflow
queue holds one packet. -/
theorem C7_overflow_enqueue_witness :
    downstreamDispatch ⟨.ok 1, .ok (), .ok (), .ok 5, true, true, true⟩
        ⟨⟨1, 2, 3, 4⟩, 0, 0, [DownPkt.failPkt 0], false⟩ (.addPkt 10 20) =
      (⟨⟨1, 2, 3, 4⟩, 0, 0, [DownPkt.failPkt 0, DownPkt.addPkt 10 20], false⟩,
        emptyEffects) :=
  C7_overflow_enqueue ⟨.ok 1, .ok (), .ok (), .ok 5, true, true, true⟩
    ⟨⟨1, 2, 3, 4⟩, 0, 0, [DownPkt.failPkt 0], false⟩ 10 20 (by decide)

/-- C9 counterexample: an exit-hop Add with `timeout = 1` and
`best_height = 0` satisfies the claim's mathematical-integer condition
`timeout - 2 <= best_height` (`-1 <= 0`), yet the code's `uint32`
subtraction wraps to `2^32 - 1`, the grace check passes and the HTLC is
settled rather than rejected. -/
theorem C9_counterexample :
    ((1 : Int) - 2 ≤ 0) ∧
    processExit false false 0 ⟨0, 0, 0, 0⟩ (some ⟨0, false, 13⟩) true true
        ⟨5000, 1, 11, 77⟩ ⟨0, 60, 1⟩ =
      AddOutcome.settleHtlc 13 11 := by
  constructor
  · decide
  · decide

/-- C9 (amended): for every exit-hop locked-in Add (outside
debug-hodl mode), if `(timeout - 2) mod 2^32 <= best_height` — the
`uint32` wrapping subtraction the code performs — then the HTLC is
rejected with `FinalIncorrectCltvExpiry` and is not settled. -/
theorem C9_graceReject_amended (debug hodl : Bool) (height : Nat)
    (policy : ForwardingPolicy) (lookup : Option Invoice) (sOk iOk : Bool)
    (pd : PaymentDesc) (fwd : FwdInfo)
    (hmode : ¬(debug = true ∧ hodl = true))
    (hgrace : sub32 pd.Timeout expiryGraceDelta ≤ height) :
    processExit debug hodl height policy lookup sOk iOk pd fwd =
      AddOutcome.rejectWith (.finalIncorrectCltvExpiry none) := by
  unfold processExit
  rw [if_neg hmode, if_pos hgrace]

/-- C9 witness: the amended theorem at `timeout = 100`,
`best_height = 200`: the grace check fires and the HTLC is rejected. -/
theorem C9_graceReject_witness :
    processExit false false 200 ⟨0, 0, 0, 0⟩ (some ⟨0, false, 13⟩) true true
        ⟨5000, 100, 11, 77⟩ ⟨0, 60, 100⟩ =
      AddOutcome.rejectWith (.finalIncorrectCltvExpiry none) :=
  C9_graceReject_amended false false 200 ⟨0, 0, 0, 0⟩ (some ⟨0, false, 13⟩)
    true true ⟨5000, 100, 11, 77⟩ ⟨0, 60, 100⟩ (by decide) (by decide)

/-- C10: `Bandwidth` is the wrapping `uint64` difference of the
available balance and the overflow total: when the overflow total
fits, it is the exact difference; when it exceeds the balance, the
result wraps modulo 2^64 to `2^64 - (overflow - balance)`, which is
even larger than the balance itself — not clamped to zero and not
negative. -/
theorem C10_bandwidth_wraps (a o : Nat) (ha : a < U64) (ho : o < U64) :
    (o ≤ a → Bandwidth a o = a - o) ∧
    (a < o → Bandwidth a o = U64 - (o - a) ∧ a < Bandwidth a o) := by
  unfold Bandwidth sub64 U64 at *
  constructor
  · intro h
    omega
  · intro h
    omega

/-- C10 witness: with balance 100 and overflow total 250 the result is
`2^64 - 150`, far above the balance. -/
theorem C10_bandwidth_witness :
    Bandwidth 100 250 = U64 - (250 - 100) ∧ 100 < Bandwidth 100 250 :=
  (C10_bandwidth_wraps 100 250 (by decide) (by decide)).2 (by decide)

/-- C1 counterexample: forwarding-hop Add with `policy = {min_htlc 0,
base_fee 0, fee_rate 500000, delta 0}`, `htlc_amount = 1000`,
`amount_to_forward = 600`, `timeout = 100`, `best_height = 0`.  The
expiry and minimum-amount checks pass; the claim's fee
`base_fee + htlc_amount*fee_rate/1e6 = 500` makes
`1000 - 500 = 500 < 600`, so the claim predicts a `FeeInsufficient`
rejection — but the code computes the fee over `amount_to_forward`
(`300`), accepts, and forwards the HTLC. -/
theorem C1_counterexample :
    ¬ sub32 100 0 ≤ 0 ∧ ¬ (1000 : Nat) < 0 ∧
    sub64 1000 (ExpectedFee ⟨0, 0, 500000, 0⟩ 1000) < 600 ∧
    processForward ⟨0, 0, 500000, 0⟩ 0 (some 1) true ⟨1000, 100, 7, 42⟩ ⟨5, 600, 50⟩ =
      AddOutcome.forwardPkt 7 5 600 50 := by
  refine ⟨by decide, by decide, by decide, by decide⟩

/-- C1 (amended): for every locked-in Add at a forwarding hop that
passed the expiry and minimum-amount checks (with the last channel
update available), the expected fee is
`policy.base_fee + onion.amount_to_forward * policy.fee_rate / 1_000_000`
(computed over the onion's amount-to-forward, in wrapping `uint64`
arithmetic with truncating division), and the HTLC is rejected with
`FeeInsufficient(htlc_amount, last_channel_update)` iff
`htlc_amount - expected_fee < onion.amount_to_forward` under `uint64`
wrapping subtraction. -/
theorem C1_feeCheck_amended (policy : ForwardingPolicy) (height u : Nat)
    (encodeOk : Bool) (pd : PaymentDesc) (fwd : FwdInfo)
    (hExp : ¬ sub32 pd.Timeout policy.TimeLockDelta ≤ height)
    (hMin : ¬ pd.Amount < policy.MinHTLC) :
    processForward policy height (some u) encodeOk pd fwd =
        AddOutcome.rejectWith (.feeInsufficient pd.Amount u) ↔
      sub64 pd.Amount (ExpectedFee policy fwd.AmountToForward) <
        fwd.AmountToForward := by
  unfold processForward
  simp only [hExp, if_false, hMin]
  by_cases h3 : sub64 pd.Amount (ExpectedFee policy fwd.AmountToForward) <
      fwd.AmountToForward
  · simp [h3]
  · simp only [h3, if_false, iff_false]
    split
    · simp
    · split <;> simp

/-- C1 witness: the amended theorem at the spec's S2 scenario
(`policy = {1000, 1000, 1, 144}`, `htlc_amount = 999500`,
`amount_to_forward = 999000`, `best_height = 500000`,
`timeout = 500200`): the fee check fails and the HTLC is rejected
with `FeeInsufficient(999500, update)`. -/
theorem C1_feeCheck_witness :
    processForward ⟨1000, 1000, 1, 144⟩ 500000 (some 5) true
        ⟨999500, 500200, 3, 8⟩ ⟨9, 999000, 500056⟩ =
      AddOutcome.rejectWith (.feeInsufficient 999500 5) :=
  (C1_feeCheck_amended ⟨1000, 1000, 1, 144⟩ 500000 5 true
    ⟨999500, 500200, 3, 8⟩ ⟨9, 999000, 500056⟩ (by decide) (by decide)).mpr
    (by decide)

/-- C8: an exit-hop locked-in Add whose invoice exists, is unsettled
and has value 0, and which passed the grace-delta expiry check, is
settled with the invoice's preimage for every `htlc.amount` and every
`onion.amount_to_forward`, provided the time-lock checks pass (they are
skipped entirely in debug mode); and outside debug mode a failing
time-lock check still rejects it with `FinalIncorrectCltvExpiry`. -/
theorem C8_zeroValueInvoice (debug hodl : Bool) (height : Nat)
    (policy : ForwardingPolicy) (inv : Invoice) (pd : PaymentDesc) (fwd : FwdInfo)
    (hmode : ¬(debug = true ∧ hodl = true))
    (hgrace : ¬ sub32 pd.Timeout expiryGraceDelta ≤ height)
    (hsettled : inv.settled = false)
    (hzero : inv.value = 0) :
    ((debug = true ∨
        (¬ fwd.OutgoingCTLV < add32 height policy.TimeLockDelta ∧
          pd.Timeout = fwd.OutgoingCTLV)) →
      processExit debug hodl height policy (some inv) true true pd fwd =
        AddOutcome.settleHtlc inv.preimage pd.HtlcIndex) ∧
    (debug = false →
      (fwd.OutgoingCTLV < add32 height policy.TimeLockDelta ∨
        pd.Timeout ≠ fwd.OutgoingCTLV) →
      ∀ sOk iOk, processExit debug hodl height policy (some inv) sOk iOk pd fwd =
        AddOutcome.rejectWith (.finalIncorrectCltvExpiry (some fwd.OutgoingCTLV))) := by
  constructor
  · intro hcltv
    unfold processExit
    rw [if_neg hmode, if_neg hgrace]
    simp only [hsettled, hzero]
    rcases hcltv with hdbg | ⟨hc1, hc2⟩
    · subst hdbg
      simp
    · simp [hc1, hc2]
  · intro hdbg hbad sOk iOk
    subst hdbg
    unfold processExit
    rw [if_neg hmode, if_neg hgrace]
    simp only [hsettled, hzero]
    rcases hbad with hb | hb
    · simp [hb]
    · simp [hb]

/-- C8 witness: the theorem at the spec's S5 scenario (zero-value
invoice, `htlc.amount = 123456`, `amount_to_forward = 123000`, expiry
valid): the HTLC is settled with the invoice's preimage. -/
theorem C8_zeroValueInvoice_witness :
    processExit false false 500000 ⟨0, 0, 0, 144⟩ (some ⟨0, false, 9⟩) true true
        ⟨123456, 500200, 7, 42⟩ ⟨0, 123000, 500200⟩ =
      AddOutcome.settleHtlc 9 7 :=
  (C8_zeroValueInvoice false false 500000 ⟨0, 0, 0, 144⟩ ⟨0, false, 9⟩
    ⟨123456, 500200, 7, 42⟩ ⟨0, 123000, 500200⟩ (by decide) (by decide)
    (by decide) (by decide)).1 (Or.inr ⟨by decide, by decide⟩)

/-- Values already in the `int64` range are fixed by the wrap. -/
theorem wrapI64_eq_self (x : Int) (h1 : -(2 ^ 63) ≤ x) (h2 : x < 2 ^ 63) :
    wrapI64 x = x := by
  unfold wrapI64
  omega

/-- Go's truncating division by 100 agrees with Euclidean division on
non-negative numerators. -/
theorem tdiv_hundred_nonneg (a : Int) (h : 0 ≤ a) :
    Int.tdiv a 100 = a / 100 := by
  obtain ⟨n, rfl⟩ := Int.eq_ofNat_of_zero_le h
  rw [show ((100 : Int)) = ((100 : Nat) : Int) from rfl, ← Int.ofNat_tdiv]
  simp [Int.ofNat_ediv]

/-- C2 counterexample: at `net = chan = 5` the claim's condition
`|net - chan| >= chan/10` holds (`0 >= 0`), but
`shouldAdjustCommitFee` returns `false`: equal fees never trigger an
adjustment, whatever `chan/10` is. -/
theorem C2_counterexample :
    shouldAdjustCommitFee 5 5 = false ∧ (5 : Int) / 10 ≤ |(5 : Int) - 5| := by
  refine ⟨by decide, by norm_num⟩

/-- C2 (amended): for non-negative `int64` fees with `chan*10` free of
overflow, `shouldAdjustCommitFee net chan = true` iff `net ≠ chan` and
`|net - chan| >= chan/10`; when `net = chan` it returns `false` even
though the absolute difference `0` reaches the threshold `chan/10 = 0`
for `chan < 10`. -/
theorem C2_shouldAdjust_amended (net chan : Int) (hn : 0 ≤ net) (hc : 0 ≤ chan)
    (hb : chan * 10 < 2 ^ 63) :
    shouldAdjustCommitFee net chan = true ↔
      net ≠ chan ∧ chan / 10 ≤ |net - chan| := by
  have h10 : wrapI64 (chan * 10) = chan * 10 := wrapI64_eq_self _ (by omega) hb
  have htd : Int.tdiv (chan * 10) 100 = chan * 10 / 100 :=
    tdiv_hundred_nonneg _ (by omega)
  have hdiv : chan * 10 / 100 = chan / 10 := by omega
  have hq1 : 0 ≤ chan / 10 := by omega
  have hq2 : chan / 10 ≤ chan := by omega
  have hadd : wrapI64 (chan + chan / 10) = chan + chan / 10 :=
    wrapI64_eq_self _ (by omega) (by omega)
  have hsub : wrapI64 (chan - chan / 10) = chan - chan / 10 :=
    wrapI64_eq_self _ (by omega) (by omega)
  unfold shouldAdjustCommitFee
  rw [h10, htd, hdiv, hadd, hsub]
  constructor
  · intro h
    split_ifs at h with h1 h2
    · obtain ⟨hlt, hle⟩ := h1
      have habs : |net - chan| = net - chan := abs_of_nonneg (by omega)
      rw [habs]
      exact ⟨by omega, by omega⟩
    · obtain ⟨hlt, hle⟩ := h2
      have habs : |net - chan| = -(net - chan) := abs_of_nonpos (by omega)
      rw [habs]
      exact ⟨by omega, by omega⟩
  · rintro ⟨hne, habs⟩
    rcases lt_trichotomy net chan with hlt | heq | hgt
    · have h2 : |net - chan| = -(net - chan) := abs_of_nonpos (by omega)
      rw [h2] at habs
      rw [if_neg (by rintro ⟨h, _⟩; omega), if_pos ⟨hlt, by omega⟩]
    · exact absurd heq hne
    · have h2 : |net - chan| = net - chan := abs_of_nonneg (by omega)
      rw [h2] at habs
      rw [if_pos ⟨hgt, by omega⟩]

/-- C2 witness: the amended theorem at `net = 110`, `chan = 100`:
the difference reaches the 10% threshold and the function fires. -/
theorem C2_shouldAdjust_witness : shouldAdjustCommitFee 110 100 = true :=
  (C2_shouldAdjust_amended 110 100 (by norm_num) (by norm_num)
    (by norm_num)).mpr ⟨by norm_num, by norm_num⟩

/-- C5 counterexample: the Channel Machine's
`RevokeCurrentCommitment` fails right after a `CommitSig` was accepted
— an error that is not among the claim's explicitly handled ones — yet
the link does not disconnect: `handleUpstreamMsg` merely logs and
returns, with no effect at all. -/
theorem C5_counterexample :
    (handleUpstreamMsg
        ⟨.ok 0, .ok (), .ok (), true, .ok (), .ok (), .error (), .ok [], .ok (),
          true, .ok 0⟩
        false false .commitSigUp ⟨⟨1, 2, 3, 4⟩, 2, 0, [], false⟩).2.failCalled =
      false ∧
    (handleUpstreamMsg
        ⟨.ok 0, .ok (), .ok (), true, .ok (), .ok (), .error (), .ok [], .ok (),
          true, .ok 0⟩
        false false .commitSigUp ⟨⟨1, 2, 3, 4⟩, 2, 0, [], false⟩).2.sent = [] := by
  refine ⟨rfl, rfl⟩

/-- C5 (amended): errors of the upstream Channel Machine calls
(`ReceiveHTLC`, `ReceiveHTLCSettle`, `ReceiveFailHTLC` on both the
plain and the malformed path, `ReceiveNewCommitment`,
`ReceiveRevocation`, `ReceiveUpdateFee`), of `SettleHTLC` on a
downstream Settle, and a non-`ErrNoWindow` signing error after an
accepted `CommitSig`, all fail the link (disconnect); but an error from
`RevokeCurrentCommitment` after an accepted `CommitSig` and an error
from `FailHTLC` on a downstream Fail packet are only logged — the link
does not disconnect and the handler returns with no further effect —
and a downstream Add error other than `ErrMaxHTLCNumber` never
disconnects: it forwards a failure packet back to the Switch when the
failure encoding (`EncodeFailure` for a local payment,
`EncryptFirstHop` otherwise) succeeds, and logs and returns without
forwarding when it does not. -/
theorem C5_failurePolicy_amended (o : UpOracle) (dor : DownOracle)
    (d ho : Bool) (s : LinkState) (i : Nat) :
    ((handleUpstreamMsg { o with receiveHTLC := .error () } d ho .addUp s).2.failCalled = true) ∧
    ((handleUpstreamMsg { o with receiveSettle := .error () } d ho .settleUp s).2.failCalled = true) ∧
    ((handleUpstreamMsg { o with receiveFail := .error () } d ho .failUp s).2.failCalled = true) ∧
    ((handleUpstreamMsg { o with encodeFailureOk := true, receiveMalformedFail := .error () } d ho
        .malformedUp s).2.failCalled = true) ∧
    (∀ b, (handleUpstreamMsg { o with receiveCommit := .error b } d ho .commitSigUp s).2.failCalled = true) ∧
    ((handleUpstreamMsg { o with receiveRevocation := .error () } d ho .revokeAndAckUp s).2.failCalled = true) ∧
    ((handleUpstreamMsg { o with receiveUpdateFee := .error () } d ho .updateFeeUp s).2.failCalled = true) ∧
    ((handleUpstreamMsg { o with receiveCommit := .ok (), revoke := .ok (), fullySynced := false, sign := .errOther } d ho .commitSigUp s).2.failCalled = true) ∧
    ((handleUpstreamMsg { o with receiveCommit := .ok (), revoke := .error () } d ho
        .commitSigUp s).2 = emptyEffects) ∧
    ((handleUpstreamMsg { o with receiveCommit := .ok (), revoke := .error () } d ho
        .commitSigUp s).1 = s) ∧
    ((handleDownStreamPkt { dor with settleResult := .error () } s (.settlePkt i i)).2.failCalled = true) ∧
    ((handleDownStreamPkt { dor with failResult := .error () } s (.failPkt i)).2.failCalled = false) ∧
    ((handleDownStreamPkt { dor with failResult := .error () } s (.failPkt i)).2.sent = []) ∧
    ((handleDownStreamPkt { dor with failResult := .error () } s (.failPkt i)).1 = s) ∧
    (∀ a hsh, (handleDownStreamPkt { dor with addResult := .error .otherAddErr } s
        (.addPkt a hsh)).2.failCalled = false) ∧
    (∀ a hsh, (handleDownStreamPkt { dor with addResult := .error .otherAddErr, hasObfuscator := false, encodeFailureOk := true } s
        (.addPkt a hsh)).2.switchPkts = 1) ∧
    (∀ a hsh, (handleDownStreamPkt { dor with addResult := .error .otherAddErr, hasObfuscator := true, encryptFirstHopOk := true } s
        (.addPkt a hsh)).2.switchPkts = 1) ∧
    (∀ a hsh, (handleDownStreamPkt { dor with addResult := .error .otherAddErr, hasObfuscator := false, encodeFailureOk := false } s
        (.addPkt a hsh)).2.switchPkts = 0) ∧
    (∀ a hsh, (handleDownStreamPkt { dor with addResult := .error .otherAddErr, hasObfuscator := true, encryptFirstHopOk := false } s
        (.addPkt a hsh)).2.switchPkts = 0) ∧
    (∀ a hsh, (handleDownStreamPkt { dor with addResult := .error .maxHTLCNumber } s
        (.addPkt a hsh)).2.failCalled = false) := by
  refine ⟨rfl, rfl, rfl, rfl, fun b => rfl, rfl, rfl, rfl, rfl, rfl, rfl, rfl,
    rfl, rfl, ?_, fun a hsh => rfl, fun a hsh => rfl, fun a hsh => rfl,
    fun a hsh => rfl, fun a hsh => rfl⟩
  intro a hsh
  cases hob : dor.hasObfuscator with
  | false =>
    cases henc : dor.encodeFailureOk <;>
      simp [handleDownStreamPkt, hob, henc, emptyEffects]
  | true =>
    cases henc : dor.encryptFirstHopOk <;>
      simp [handleDownStreamPkt, hob, henc, emptyEffects]

/-- When every Channel-Machine settle and every invoice settle
succeeds, the post-resync scan settles exactly the eligible HTLCs
(incoming, not re-settled during the sync, preimage known), in list
order, incrementing `batchCounter` once per settle. -/
theorem syncSettleScan_eq (cache : Nat → Option Nat) (sOk iOk : Nat → Bool)
    (sIdx : List Nat) (hs : List ActiveHtlc) (s : LinkState)
    (h1 : ∀ i, sOk i = true) (h2 : ∀ r, iOk r = true) :
    syncSettleScan cache sOk iOk sIdx hs s =
      some ({ s with
          batchCounter := s.batchCounter + (eligibleHtlcs cache sIdx hs).length },
        (eligibleHtlcs cache sIdx hs).map
          (fun h => WireMsg.settleMsg h.htlcIndex ((cache h.rhash).getD 0))) := by
  induction hs generalizing s with
  | nil => simp [syncSettleScan, eligibleHtlcs]
  | cons h rest ih =>
    simp only [syncSettleScan]
    by_cases hin : h.incoming = false
    · rw [if_pos hin, ih]
      have hpred : (h.incoming && !(decide (h.htlcIndex ∈ sIdx)) &&
          (cache h.rhash).isSome) = false := by
        simp [hin]
      simp [eligibleHtlcs, List.filter_cons, hpred]
    · have hin' : h.incoming = true := by
        revert hin; cases h.incoming <;> simp
      rw [if_neg hin]
      by_cases hmem : h.htlcIndex ∈ sIdx
      · rw [if_pos hmem, ih]
        have hpred : (h.incoming && !(decide (h.htlcIndex ∈ sIdx)) &&
            (cache h.rhash).isSome) = false := by
          simp [hmem]
        simp [eligibleHtlcs, List.filter_cons, hpred]
      · rw [if_neg hmem]
        cases hcache : cache h.rhash with
        | none =>
          rw [ih]
          have hpred : (h.incoming && !(decide (h.htlcIndex ∈ sIdx)) &&
              (cache h.rhash).isSome) = false := by
            simp [hcache]
          simp [eligibleHtlcs, List.filter_cons, hpred]
        | some p =>
          rw [h1 h.htlcIndex, h2 h.rhash]
          simp only [Bool.true_eq_false, if_false, ih]
          have hpred : (h.incoming && !(decide (h.htlcIndex ∈ sIdx)) &&
              (cache h.rhash).isSome) = true := by
            simp [hin', hmem, hcache]
          simp [eligibleHtlcs, List.filter_cons, hpred, hcache, hin', hmem,
            Nat.add_comm, Nat.add_assoc]

/-- C6: on resync with all settle operations succeeding, the
post-replay preimage scan locally settles (wire Settle sent with the
cached preimage, one `batchCounter` increment each) exactly those
active HTLCs that are incoming, whose index is absent from the
replayed-settle index set, and whose preimage the Preimage Cache
knows; in particular no HTLC index in the replayed-settle set is ever
re-settled by the scan. -/
theorem C6_resyncScan (cache : Nat → Option Nat) (sOk iOk : Nat → Bool)
    (resend : List ReMsg) (hs : List ActiveHtlc) (s : LinkState)
    (h1 : ∀ i, sOk i = true) (h2 : ∀ r, iOk r = true) :
    syncChanStatesScan cache sOk iOk resend hs s =
      some ({ s with
          batchCounter := s.batchCounter +
            (eligibleHtlcs cache (settledIndices resend) hs).length },
        (eligibleHtlcs cache (settledIndices resend) hs).map
          (fun h => WireMsg.settleMsg h.htlcIndex ((cache h.rhash).getD 0))) ∧
    (∀ h, h ∈ hs →
      (h ∈ eligibleHtlcs cache (settledIndices resend) hs ↔
        h.incoming = true ∧ h.htlcIndex ∉ settledIndices resend ∧
          (cache h.rhash).isSome = true)) ∧
    (∀ idx p,
      WireMsg.settleMsg idx p ∈
          (eligibleHtlcs cache (settledIndices resend) hs).map
            (fun h => WireMsg.settleMsg h.htlcIndex ((cache h.rhash).getD 0)) →
      idx ∉ settledIndices resend) := by
  refine ⟨syncSettleScan_eq cache sOk iOk _ hs s h1 h2, ?_, ?_⟩
  · intro h hmem
    simp [eligibleHtlcs, List.mem_filter, hmem, and_assoc]
  · intro idx p hm
    rw [List.mem_map] at hm
    obtain ⟨a, ha, heq⟩ := hm
    injection heq with e1 e2
    subst e1
    rw [eligibleHtlcs, List.mem_filter] at ha
    have := ha.2
    simp only [Bool.and_eq_true, Bool.not_eq_true', decide_eq_false_iff_not] at this
    exact this.1.2

/-- C6 witness: the theorem on a concrete resync: the replayed settles
cover index 1, the cache knows the preimage for hash 42; of the four
active HTLCs only the incoming one with index 2 and hash 42 is
settled, and `batchCounter` becomes 1. -/
theorem C6_resyncScan_witness :
    syncChanStatesScan (fun r => if r = 42 then some 9 else none)
        (fun _ => true) (fun _ => true)
        [ReMsg.settleRe 1, ReMsg.otherRe 0]
        [⟨true, 1, 42⟩, ⟨true, 2, 42⟩, ⟨false, 3, 42⟩, ⟨true, 4, 43⟩]
        ⟨⟨1, 2, 3, 4⟩, 0, 0, [], false⟩ =
      some (⟨⟨1, 2, 3, 4⟩, 1, 0, [], false⟩, [WireMsg.settleMsg 2 9]) :=
  (C6_resyncScan (fun r => if r = 42 then some 9 else none)
    (fun _ => true) (fun _ => true)
    [ReMsg.settleRe 1, ReMsg.otherRe 0]
    [⟨true, 1, 42⟩, ⟨true, 2, 42⟩, ⟨false, 3, 42⟩, ⟨true, 4, 43⟩]
    ⟨⟨1, 2, 3, 4⟩, 0, 0, [], false⟩ (fun i => rfl) (fun r => rfl)).1
